import Mathlib

/-!
Verification of the automation scheduling and delivery subsystem of the
pocket_crypto Telegram bot (src/main.py).

The Python code keeps, per user, a table `{"counter": n, "items": {...}}` in
`bot_data["automations"]` (see `get_user_automations`).  Items map an integer
automation id to `{"slug", "symbol", "period", "job"}`.  Jobs are registered
with the telegram job queue via `run_repeating` and canceled via
`schedule_removal`.  We embed the job queue as an arena of registrations
indexed by an opaque natural-number handle, and Python dicts as
insertion-ordered association lists with unique keys (dict semantics:
setting an existing key replaces in place, setting a fresh key appends,
popping removes the entry).
-/

/-- Association-list lookup, the embedding of Python `d.get(k)` / `k in d`. -/
def lookupKey {κ α : Type} [DecidableEq κ] (k : κ) : List (κ × α) → Option α
  | [] => none
  | (k', v) :: rest => if k' = k then some v else lookupKey k rest

/-- Association-list update, the embedding of Python `d[k] = v`: replaces the
value in place when the key exists, appends a fresh entry otherwise. -/
def dictSet {κ α : Type} [DecidableEq κ] : List (κ × α) → κ → α → List (κ × α)
  | [], k, v => [(k, v)]
  | (k', v') :: rest, k, v =>
      if k' = k then (k, v) :: rest else (k', v') :: dictSet rest k v

/-- Association-list removal, the embedding of Python `d.pop(k)` on a dict
with unique keys. -/
def dictErase {κ α : Type} [DecidableEq κ] (l : List (κ × α)) (k : κ) : List (κ × α) :=
  l.filter (fun e => e.1 ≠ k)

/-- The `PERIOD_SECONDS` dict of src/main.py, as a lookup: it maps exactly the
four period keys to their fixed durations in seconds. -/
def periodSecondsMap (s : String) : Option Nat :=
  if s = "hourly" then some 3600
  else if s = "daily" then some 86400
  else if s = "weekly" then some 604800
  else if s = "monthly" then some 2592000
  else none

/-- The four period tokens that reach `schedule_automation`: the conversation
handler (`automation_period_selection`, src/main.py line 662) rejects any
period not in `PERIOD_SECONDS` before creating an automation, so creation
only ever sees these. -/
inductive Period
  | hourly
  | daily
  | weekly
  | monthly
deriving DecidableEq

/-- The dict key of a validated period. -/
def Period.key : Period → String
  | .hourly => "hourly"
  | .daily => "daily"
  | .weekly => "weekly"
  | .monthly => "monthly"

/-- `PERIOD_SECONDS[period]` for a validated period. -/
def Period.seconds : Period → Nat
  | .hourly => 3600
  | .daily => 86400
  | .weekly => 604800
  | .monthly => 2592000

/-- The `data` dict captured at registration time and read back with
`data.get(...)` by `send_automation_update`; `Option` models keys that may be
absent or `None`. -/
structure TickData where
  slug : Option String
  symbol : Option String
  period : Option String
  userId : Option Int
deriving DecidableEq

/-- One job-queue registration: the arguments of `job_queue.run_repeating`. -/
structure Reg where
  interval : Nat
  data : TickData
  chatId : Int
  name : String
deriving DecidableEq

/-- The job queue, embedded as an arena: active registrations keyed by an
opaque handle, with a counter supplying fresh handles. -/
structure Sched where
  nextHandle : Nat
  regs : List (Nat × Reg)
deriving DecidableEq

/-- `job_queue.run_repeating(...)`: registers a callback and returns its
handle (in the code, the live `Job` object stored in the item). -/
def Sched.runRepeating (s : Sched) (r : Reg) : Nat × Sched :=
  (s.nextHandle, ⟨s.nextHandle + 1, s.regs ++ [(s.nextHandle, r)]⟩)

/-- `job.schedule_removal()`: cancels the registration with the given handle. -/
def Sched.cancel (s : Sched) (h : Nat) : Sched :=
  ⟨s.nextHandle, s.regs.filter (fun e => e.1 ≠ h)⟩

/-- One stored automation entry: `{"slug","symbol","period","job"}`. -/
structure Automation where
  slug : String
  symbol : String
  period : String
  job : Nat
deriving DecidableEq

/-- One user's automation table: `{"counter": n, "items": {...}}`. -/
structure Table where
  counter : Nat
  items : List (Nat × Automation)
deriving DecidableEq

/-- One user's table together with the job queue it registers into. -/
structure Config where
  table : Table
  sched : Sched
deriving DecidableEq

/-- The fresh table produced by `get_user_automations` on first access:
`{"counter": 1, "items": {}}`. -/
def initialTable : Table := ⟨1, []⟩

/-- A fresh user's world: empty table, no registrations. -/
def initialConfig : Config := ⟨initialTable, ⟨0, []⟩⟩

/-- `schedule_automation` (src/main.py lines 441-467): allocates the next id,
bumps the counter, registers a repeating callback at the period's interval
carrying the payload dict, and stores the entry. Returns the new id. -/
def scheduleAutomation (c : Config) (userId chatId : Int) (slug symbol : String)
    (p : Period) : Nat × Config :=
  let automationId := c.table.counter
  let interval := p.seconds
  let reg : Reg :=
    ⟨interval, ⟨some slug, some symbol, some p.key, some userId⟩, chatId,
      "auto-" ++ toString userId ++ "-" ++ toString automationId⟩
  let hs := c.sched.runRepeating reg
  (automationId,
    ⟨⟨c.table.counter + 1,
      dictSet c.table.items automationId ⟨slug, symbol, p.key, hs.1⟩⟩, hs.2⟩)

/-- `cancel_automation` (src/main.py lines 470-476): pops the item; if it
existed, cancels its job and reports `True`, else reports `False`. -/
def cancelAutomation (c : Config) (automationId : Nat) : Config × Bool :=
  match lookupKey automationId c.table.items with
  | some item =>
      (⟨⟨c.table.counter, dictErase c.table.items automationId⟩,
        c.sched.cancel item.job⟩, true)
  | none => (c, false)

/-- Outcomes of the `set` branch of `manage_callback`. -/
inductive ManageResult
  | missing
  | invalidPeriod
  | ok
deriving DecidableEq

/-- The update-period action of `manage_callback` (src/main.py lines 811-848):
a missing id is reported first (line 792), then an invalid period token
(line 812); otherwise the old job is canceled, a new repeating job is
registered at the new interval with the entry's slug and symbol, and the
entry's `period` and `job` fields are replaced in place. -/
def updatePeriod (c : Config) (userId chatId : Int) (automationId : Nat)
    (period : String) : Config × ManageResult :=
  match lookupKey automationId c.table.items with
  | none => (c, .missing)
  | some item =>
    match periodSecondsMap period with
    | none => (c, .invalidPeriod)
    | some interval =>
      let sched1 := c.sched.cancel item.job
      let hs := sched1.runRepeating
        ⟨interval, ⟨some item.slug, some item.symbol, some period, some userId⟩,
          chatId, "auto-" ++ toString userId ++ "-" ++ toString automationId⟩
      (⟨⟨c.table.counter,
          dictSet c.table.items automationId ⟨item.slug, item.symbol, period, hs.1⟩⟩,
        hs.2⟩, .ok)

/-- A user-driven operation on one user's automation table. -/
inductive AOp
  | create (chatId : Int) (slug symbol : String) (p : Period)
  | delete (automationId : Nat)

/-- Effect of one operation on the state. -/
def stepOp (userId : Int) (c : Config) : AOp → Config
  | .create chatId slug symbol p => (scheduleAutomation c userId chatId slug symbol p).2
  | .delete automationId => (cancelAutomation c automationId).1

/-- Run a sequence of operations. -/
def runOps (userId : Int) (c : Config) : List AOp → Config
  | [] => c
  | op :: rest => runOps userId (stepOp userId c op) rest

/-- Ids handed back by `schedule_automation` over a run, in order. -/
def issuedIds (userId : Int) (c : Config) : List AOp → List Nat
  | [] => []
  | .create chatId slug symbol p :: rest =>
      let r := scheduleAutomation c userId chatId slug symbol p
      r.1 :: issuedIds userId r.2 rest
  | .delete automationId :: rest =>
      issuedIds userId (cancelAutomation c automationId).1 rest

/-- Number of create operations in a sequence. -/
def numCreates : List AOp → Nat
  | [] => 0
  | .create _ _ _ _ :: rest => numCreates rest + 1
  | .delete _ :: rest => numCreates rest

/-- Handles of the registrations currently active in the job queue. -/
def activeHandles (c : Config) : List Nat := c.sched.regs.map (fun e => e.1)

/-- Handles stored in the non-deleted automation entries. -/
def tableJobs (c : Config) : List Nat := c.table.items.map (fun e => e.2.job)

/-- The per-user store `bot_data["automations"]`. -/
def getUserAutomations (store : List (Int × Table)) (userId : Int) :
    Table × List (Int × Table) :=
  match lookupKey userId store with
  | some t => (t, store)
  | none => (initialTable, store ++ [(userId, initialTable)])

/-- The listing read by `manage_automation`: the items of the (possibly
freshly vivified) table. -/
def listAutomations (store : List (Int × Table)) (userId : Int) :
    List (Nat × Automation) :=
  (getUserAutomations store userId).1.items

/-!
Formatting layer (src/main.py lines 511-566).  Numeric statistics reaching
the formatters are embedded as `PyVal`: absent/`None`, a finite decimal
number (the value `Decimal(str(x))` yields), or a junk value — a non-empty,
non-numeric string-like object, the "fails to parse" case of the spec, whose
`str()` is carried along.  `Dec` is a finite decimal `m × 10^(-e)`, the shape
`Decimal(str(x))` produces for the inputs the code handles.
-/

/-- A finite decimal value `m × 10^(-e)`, embedding the `Decimal` values the
formatters compute with. -/
structure Dec where
  m : Int
  e : Nat
deriving DecidableEq

/-- A Python value found in a statistics field. -/
inductive PyVal
  | pyNone
  | pyNum (d : Dec)
  | pyJunk (s : String)
deriving DecidableEq

/-- Decimal digit characters of `n`, most significant first (fuel-bounded
structural recursion; 40 digits suffice for every value considered). -/
def digitsAux : Nat → Nat → List Char
  | 0, _ => []
  | _, 0 => []
  | fuel + 1, n => digitsAux fuel (n / 10) ++ [Char.ofNat (48 + n % 10)]

/-- Digit characters of `n`, with `0` rendered as `"0"`. -/
def natDigits (n : Nat) : List Char :=
  if n = 0 then [Char.ofNat 48] else digitsAux 40 n

/-- Decimal rendering of a natural number. -/
def natStr (n : Nat) : String :=
  String.mk (natDigits n)

/-- Decimal rendering of an integer. -/
def intStr (m : Int) : String :=
  (if m < 0 then ("-") else ("")) ++ natStr m.natAbs

/-- Left-pad with zeros to `w` characters. -/
def padZeros (w : Nat) (s : String) : String :=
  String.mk (List.replicate (w - s.length) (Char.ofNat 48)) ++ s

/-- Insert a comma after every three characters of a reversed digit list:
the thousands grouping of Python's `,` format flag. -/
def commaRev : List Char → List Char
  | a :: b :: c :: d :: rest => a :: b :: c :: Char.ofNat 44 :: commaRev (d :: rest)
  | l => l

/-- `n` rendered with thousands separators. -/
def groupedNatStr (n : Nat) : String :=
  String.mk ((commaRev (natDigits n).reverse).reverse)

/-- Round `n / k` to the nearest integer, ties to even: the
`ROUND_HALF_EVEN` rounding Python's fixed-point formatting applies. -/
def roundHalfEvenNat (n k : Nat) : Nat :=
  let q := n / k
  let r := n % k
  if 2 * r < k then q
  else if k < 2 * r then q + 1
  else if q % 2 = 0 then q else q + 1

/-- `|d| × 10^places` rounded half-even to an integer: the scaled value a
`.{places}f` format spec works from. -/
def scaledAbs (d : Dec) (places : Nat) : Nat :=
  if d.e ≤ places then d.m.natAbs * 10 ^ (places - d.e)
  else roundHalfEvenNat d.m.natAbs (10 ^ (d.e - places))

/-- Python `f"{value:,.{places}f}"` on a decimal: sign, grouped integer part,
and `places` fractional digits (none when `places = 0`). -/
def formatFixedGrouped (d : Dec) (places : Nat) : String :=
  let sign := if d.m < 0 then ("-") else ("")
  let s := scaledAbs d places
  if places = 0 then sign ++ groupedNatStr s
  else sign ++ groupedNatStr (s / 10 ^ places) ++ "." ++ padZeros places (natStr (s % 10 ^ places))

/-- Python `f"{value:+.2f}"`: explicit sign (taken from the value, so a tiny
negative rounds to `-0.00`), two fractional digits, no grouping. -/
def signedFixed2 (d : Dec) : String :=
  let s := scaledAbs d 2
  (if d.m < 0 then ("-") else ("+")) ++ natStr (s / 100) ++ "." ++ padZeros 2 (natStr (s % 100))

/-- Python `format(dec, "f")`: the full plain-decimal rendering, never
scientific notation. -/
def fixedPlain (d : Dec) : String :=
  if d.e = 0 then intStr d.m
  else
    let ds := natDigits d.m.natAbs
    let padded := List.replicate (d.e + 1 - ds.length) (Char.ofNat 48) ++ ds
    (if d.m < 0 then ("-") else ("")) ++
      String.mk (padded.take (padded.length - d.e)) ++ "." ++
      String.mk (padded.drop (padded.length - d.e))

/-- Python `s.rstrip("0")`. -/
def rstripZeros (s : String) : String :=
  String.mk (s.data.reverse.dropWhile (fun c => c = Char.ofNat 48)).reverse

/-- Python `c in s` for a single character. -/
def strContainsChar (s : String) (c : Char) : Bool :=
  s.data.contains c

/-- Python `s.endswith(c)` for a single character. -/
def endsWithChar (s : String) (c : Char) : Bool :=
  match s.data.reverse with
  | x :: _ => x = c
  | [] => false

/-- `format_number` (src/main.py lines 511-517): `None` renders as `"?"`;
a number renders as `f"{pfx}{value:,.{decimals}f}"`; a junk value makes the
format spec raise `TypeError`/`ValueError`, which is caught and rendered as
`"?"`. -/
def format_number (value : PyVal) (pfx : String) (decimals : Nat) : String :=
  match value with
  | .pyNone => ("?")
  | .pyNum d => pfx ++ formatFixedGrouped d decimals
  | .pyJunk _ => ("?")

/-- `format_price` (src/main.py lines 520-541): `None` renders as `"?"`;
`Decimal(str(value))` raising on a junk value renders as `"?"`; a
non-positive value renders as `$0.00`; a value ≥ 1 as grouped two-decimal
fixed point; a value in (0,1) as its full plain decimal with trailing zeros
stripped and a guard digit restored after a bare point. -/
def format_price (value : PyVal) (pfx : String) : String :=
  match value with
  | .pyNone => ("?")
  | .pyJunk _ => ("?")
  | .pyNum dec =>
    if dec.m ≤ 0 then pfx ++ "0.00"
    else if (10 : Int) ^ dec.e ≤ dec.m then pfx ++ formatFixedGrouped dec 2
    else
      let fixed0 := fixedPlain dec
      let fixed1 := if strContainsChar fixed0 (Char.ofNat 46) then rstripZeros fixed0 else fixed0
      let fixed2 := if endsWithChar fixed1 (Char.ofNat 46) then fixed1 ++ "0" else fixed1
      pfx ++ fixed2

/-- The statistics dict of a fetched quote; every field read with `.get`. -/
structure Stats where
  price : PyVal
  priceChangePercentage24h : PyVal
  marketCap : PyVal
  volume24h : PyVal
  rank : PyVal
deriving DecidableEq

/-- A quote dict as built by `CoinMarketCapClient.fetch_quote`; `stats` is an
`Option` so that the defensive `"stats" not in quote` check stays meaningful. -/
structure Quote where
  name : Option String
  symbol : Option String
  slug : String
  stats : Option Stats
deriving DecidableEq

/-- The empty statistics dict (`data.get("statistics") or {}`). -/
def emptyStats : Stats := ⟨.pyNone, .pyNone, .pyNone, .pyNone, .pyNone⟩

/-- Python truthiness of a statistics value: `None` and zero are falsy, a
junk value is falsy only when its underlying string is empty. -/
def PyVal.truthy : PyVal → Bool
  | .pyNone => false
  | .pyNum d => d.m ≠ 0
  | .pyJunk s => s ≠ ""

/-- Python `str()` of a statistics value as interpolated into an f-string. -/
def PyVal.pyStr : PyVal → String
  | .pyNone => ("None")
  | .pyNum d => fixedPlain d
  | .pyJunk s => s

/-- The quote-rendering labels of one entry of `TEXTS`, together with its
`periods` sub-dict (the slice of the text catalog `format_quote` and
`get_period_label` read). -/
structure LangPack where
  quotePrice : String
  quoteChange : String
  quoteMarketcap : String
  quoteVolume : String
  quoteRank : String
  quoteSource : String
  periods : String → Option String

/-- `TEXTS["en"]`, quote labels and periods. -/
def enPack : LangPack :=
  ⟨"Price", "24h Change", "Market Cap", "24h Volume", "Market Cap Rank", "Source",
    fun p =>
      if p = "hourly" then some ("Hourly")
      else if p = "daily" then some ("Daily")
      else if p = "weekly" then some ("Weekly")
      else if p = "monthly" then some ("Monthly")
      else none⟩

/-- `TEXTS["es"]`, quote labels and periods. -/
def esPack : LangPack :=
  ⟨"Precio", "Cambio 24h", "Capitalización", "Volumen 24h", "Rango de capitalización", "Fuente",
    fun p =>
      if p = "hourly" then some ("Cada hora")
      else if p = "daily" then some ("Diario")
      else if p = "weekly" then some ("Semanal")
      else if p = "monthly" then some ("Mensual")
      else none⟩

/-- `TEXTS["zh"]`, quote labels and periods. -/
def zhPack : LangPack :=
  ⟨"价格", "24小时变化", "市值", "24小时成交量", "市值排名", "来源",
    fun p =>
      if p = "hourly" then some ("每小时")
      else if p = "daily" then some ("每天")
      else if p = "weekly" then some ("每周")
      else if p = "monthly" then some ("每月")
      else none⟩

/-- `TEXTS["fa"]`, quote labels and periods. -/
def faPack : LangPack :=
  ⟨"قیمت", "تغییر ۲۴ساعته", "ارزش بازار", "حجم ۲۴ساعته", "رتبه ارزش بازار", "منبع",
    fun p =>
      if p = "hourly" then some ("ساعتی")
      else if p = "daily" then some ("روزانه")
      else if p = "weekly" then some ("هفتگی")
      else if p = "monthly" then some ("ماهانه")
      else none⟩

/-- `get_language_data` (src/main.py line 272): the catalog entry for the
language, falling back to English. -/
def getLanguageData (lang : String) : LangPack :=
  if lang = "en" then enPack
  else if lang = "es" then esPack
  else if lang = "zh" then zhPack
  else if lang = "fa" then faPack
  else enPack

/-- `get_period_label` (src/main.py line 282): the localized period label,
falling back to English and then to the raw token. -/
def get_period_label (lang period : String) : String :=
  match (getLanguageData lang).periods period with
  | some l => l
  | none =>
    match enPack.periods period with
    | some l => l
    | none => period

/-- `format_quote` (src/main.py lines 544-566).  Inputs beyond the quote:
the user's language and the current UTC timestamp string
(`datetime.now(timezone.utc).strftime(...)`), both read from the environment
by the code.  The 24h-change field is the one numeric field rendered by a
bare f-string format spec `f"{change_24h:+.2f}%"` guarded only by an
`is None` check, so a present junk value raises an uncaught
`ValueError`/`TypeError` — modelled by `Except.error`.  Every other numeric
field degrades to `"?"` inside `format_price`/`format_number`. -/
def format_quote (quote : Quote) (lang : String) (timestamp : String) :
    Except Unit String :=
  let stats := quote.stats.getD emptyStats
  let price := format_price stats.price ("$")
  let marketCap := format_number stats.marketCap ("$") 0
  let volume := format_number stats.volume24h ("$") 0
  let labels := getLanguageData lang
  match stats.priceChangePercentage24h with
  | .pyJunk _ => .error ()
  | changeVal =>
    let changeStr :=
      match changeVal with
      | .pyNone => ("?")
      | .pyNum d => signedFixed2 d ++ "%"
      | .pyJunk _ => ("?")
    let lines1 :=
      [(quote.name.getD ("None")) ++ " (" ++ (quote.symbol.getD ("None")) ++ ")",
        labels.quotePrice ++ ": " ++ price,
        labels.quoteChange ++ ": " ++ changeStr,
        labels.quoteMarketcap ++ ": " ++ marketCap,
        labels.quoteVolume ++ ": " ++ volume]
    let lines2 :=
      if stats.rank.truthy
      then lines1 ++ [labels.quoteRank ++ ": #" ++ stats.rank.pyStr]
      else lines1
    let lines3 := lines2 ++ [labels.quoteSource ++ ": CoinMarketCap - " ++ timestamp]
    .ok (String.intercalate ("\n") lines3)

/-- `DEFAULT_LANGUAGE` (src/main.py line 32). -/
def DEFAULT_LANGUAGE : String := "en"

/-- A message sent by the delivery callback; text is kept structured (the
localized template plus its interpolated data). -/
inductive MsgText
  | fetchUnavailable (lang : String) (symbol : Option String)
  | automationQuote (lang : String) (periodLabel : Option String) (body : String)
deriving DecidableEq

/-- One outbound `bot.send_message` call. -/
structure OutMsg where
  chatId : Int
  text : MsgText
deriving DecidableEq

/-- Observable effects of one run of `send_automation_update`: the messages
sent, the deletion delays scheduled for them (in order), how many times
`fetch_quote` was called, whether the callback removed its own registration
(the code never does), and whether an exception escaped the callback. -/
structure TickResult where
  sent : List OutMsg
  deleteDelays : List Nat
  fetchCalls : Nat
  removedJob : Bool
  raised : Bool
deriving DecidableEq

/-- The language chosen at the top of `send_automation_update`:
`get_user_language(context, user_id) if user_id else DEFAULT_LANGUAGE`, with
`langOf` embedding the `bot_data["languages"]` store lookup (note a zero id
is falsy in Python). -/
def tickLang (data : TickData) (langOf : Int → String) : String :=
  match data.userId with
  | some u => if u = 0 then DEFAULT_LANGUAGE else langOf u
  | none => DEFAULT_LANGUAGE

/-- `get_period_label(lang, period) if period else period` (an empty string
is falsy). -/
def tickPeriodLabel (data : TickData) (langOf : Int → String) : Option String :=
  match data.period with
  | some p => if p = "" then some p else some (get_period_label (tickLang data langOf) p)
  | none => none

/-- `PERIOD_SECONDS.get(period, 3600)`: the deletion delay for the sent
message, falling back to 3600 when the payload period is absent or unknown. -/
def tickDelay (data : TickData) : Nat :=
  match data.period with
  | some p => (periodSecondsMap p).getD 3600
  | none => 3600

/-- `client.fetch_quote(slug) if slug else None` (an empty slug is falsy);
`fetch` embeds the external `QuoteSource`. -/
def tickQuote (data : TickData) (fetch : String → Option Quote) : Option Quote :=
  match data.slug with
  | some s => if s = "" then none else fetch s
  | none => none

/-- Number of `fetch_quote` calls the tick makes. -/
def tickFetchCalls (data : TickData) : Nat :=
  match data.slug with
  | some s => if s = "" then 0 else 1
  | none => 0

/-- The failure test of `send_automation_update` (src/main.py line 490):
`not quote or "stats" not in quote or quote["stats"].get("price") is None`. -/
def fetchFails : Option Quote → Bool
  | none => true
  | some q =>
    match q.stats with
    | none => true
    | some st =>
      match st.price with
      | .pyNone => true
      | _ => false

/-- `send_automation_update` (src/main.py lines 479-508): fetch once, send a
localized unavailable notice on failure, otherwise send the period-prefixed
quote rendering; either sent message is scheduled for deletion after
`PERIOD_SECONDS.get(period, 3600)` seconds.  When `format_quote` raises (junk
24h-change value) the exception escapes before any message is sent; the job
framework logs it and the registration survives.  The final `none` branch is
unreachable (`fetchFails none = true`) and present only for totality. -/
def sendAutomationUpdate (data : TickData) (jobChatId : Int)
    (langOf : Int → String) (fetch : String → Option Quote)
    (timestamp : String) : TickResult :=
  let lang := tickLang data langOf
  let q := tickQuote data fetch
  let n := tickFetchCalls data
  let delay := tickDelay data
  if fetchFails q then
    ⟨[⟨jobChatId, .fetchUnavailable lang data.symbol⟩], [delay], n, false, false⟩
  else
    match q with
    | some quote =>
      match format_quote quote lang timestamp with
      | .error _ => ⟨[], [], n, false, true⟩
      | .ok body =>
        ⟨[⟨jobChatId, .automationQuote lang (tickPeriodLabel data langOf) body⟩],
          [delay], n, false, false⟩
    | none => ⟨[], [], n, false, false⟩

/-- Whether a statistics value is a junk (present but unparseable) value. -/
def PyVal.isJunk : PyVal → Bool
  | .pyJunk _ => true
  | _ => false

/-- A concrete tick payload: the dict `schedule_automation` captures for a
BTC hourly automation of user 7. -/
def cexTickData : TickData := ⟨some ("bitcoin"), some ("BTC"), some ("hourly"), some 7⟩

/-- A concrete fetched quote whose price is present and numeric but whose
24h-change statistic is a junk value. -/
def cexQuote : Quote :=
  ⟨some ("Bitcoin"), some ("BTC"), "bitcoin",
    some ⟨PyVal.pyNum ⟨5000000, 2⟩, PyVal.pyJunk ("n/a"),
      PyVal.pyNone, PyVal.pyNone, PyVal.pyNone⟩⟩

/-- A quote source that always returns `cexQuote`. -/
def cexFetch : String → Option Quote := fun _ => some cexQuote

/-- A concrete one-automation state: user 7 owns automation 1 (BTC, hourly,
job handle 0), and the job queue holds exactly that registration. -/
def wCfg : Config :=
  ⟨⟨2, [(1, ⟨"bitcoin", "BTC", "hourly", 0⟩)]⟩,
    ⟨1, [(0, ⟨3600, ⟨some ("bitcoin"), some ("BTC"), some ("hourly"), some 7⟩, 99,
      "auto-7-1"⟩)]⟩⟩

/-- A concrete operation sequence: create, delete the first id, create again. -/
def wOps : List AOp :=
  [AOp.create 99 ("bitcoin") ("BTC") Period.hourly,
   AOp.delete 1,
   AOp.create 99 ("tether") ("USDT") Period.daily]

/-! Helper lemmas about the dict embedding. -/

theorem lookupKey_mem {κ α : Type} [DecidableEq κ] {l : List (κ × α)} {k : κ} {v : α}
    (h : lookupKey k l = some v) : (k, v) ∈ l := by
  induction l with
  | nil => simp [lookupKey] at h
  | cons e rest ih =>
    rw [show e = (e.1, e.2) from rfl, lookupKey] at h
    by_cases hk : e.1 = k
    · rw [if_pos hk] at h
      obtain rfl : e.2 = v := by injection h
      simp [← hk]
    · rw [if_neg hk] at h
      exact List.mem_cons_of_mem _ (ih h)

theorem lookupKey_isSome_iff {κ α : Type} [DecidableEq κ] {l : List (κ × α)} {k : κ} :
    (lookupKey k l).isSome = true ↔ ∃ v, lookupKey k l = some v := by
  cases h : lookupKey k l <;> simp [h]

theorem dictSet_of_fresh {κ α : Type} [DecidableEq κ] {l : List (κ × α)} {k : κ} (v : α)
    (h : ∀ e ∈ l, e.1 ≠ k) : dictSet l k v = l ++ [(k, v)] := by
  induction l with
  | nil => rfl
  | cons e rest ih =>
    rw [show e = (e.1, e.2) from rfl, dictSet, if_neg (h e (by simp))]
    simp only [List.cons_append, List.cons.injEq, true_and]
    exact ih fun x hx => h x (by simp [hx])

theorem lookupKey_dictSet_self {κ α : Type} [DecidableEq κ] (l : List (κ × α)) (k : κ) (v : α) :
    lookupKey k (dictSet l k v) = some v := by
  induction l with
  | nil => simp [dictSet, lookupKey]
  | cons e rest ih =>
    rw [show e = (e.1, e.2) from rfl, dictSet]
    by_cases hk : e.1 = k
    · rw [if_pos hk, lookupKey, if_pos rfl]
    · rw [if_neg hk, lookupKey, if_neg hk]
      exact ih

theorem lookupKey_dictSet_ne {κ α : Type} [DecidableEq κ] (l : List (κ × α)) {j k : κ}
    (v : α) (h : j ≠ k) : lookupKey j (dictSet l k v) = lookupKey j l := by
  induction l with
  | nil => simp [dictSet, lookupKey, Ne.symm h]
  | cons e rest ih =>
    obtain ⟨k', v'⟩ := e
    rw [dictSet]
    by_cases hk : k' = k
    · rw [if_pos hk, lookupKey, lookupKey, if_neg (Ne.symm h), if_neg (hk ▸ Ne.symm h)]
    · rw [if_neg hk, lookupKey, lookupKey]
      by_cases hj : k' = j
      · rw [if_pos hj, if_pos hj]
      · rw [if_neg hj, if_neg hj]
        exact ih

theorem lookupKey_dictErase_ne {κ α : Type} [DecidableEq κ] (l : List (κ × α)) {j k : κ}
    (h : j ≠ k) : lookupKey j (dictErase l k) = lookupKey j l := by
  induction l with
  | nil => rfl
  | cons e rest ih =>
    obtain ⟨k', v'⟩ := e
    by_cases hk : k' = k
    · have h1 : dictErase ((k', v') :: rest) k = dictErase rest k := by
        simp [dictErase, List.filter_cons, hk]
      have h2 : lookupKey j ((k', v') :: rest) = lookupKey j rest := by
        rw [lookupKey, if_neg (hk ▸ Ne.symm h)]
      rw [h1, h2]
      exact ih
    · have h1 : dictErase ((k', v') :: rest) k = (k', v') :: dictErase rest k := by
        simp [dictErase, List.filter_cons, hk]
      rw [h1, lookupKey, lookupKey]
      by_cases hj : k' = j
      · rw [if_pos hj, if_pos hj]
      · rw [if_neg hj, if_neg hj]
        exact ih

theorem lookupKey_append_self {κ α : Type} [DecidableEq κ] {l : List (κ × α)} {k : κ}
    (h : lookupKey k l = none) (v : α) : lookupKey k (l ++ [(k, v)]) = some v := by
  induction l with
  | nil => simp [lookupKey]
  | cons e rest ih =>
    obtain ⟨k', v'⟩ := e
    rw [lookupKey] at h
    by_cases hk : k' = k
    · rw [if_pos hk] at h
      exact absurd h (by simp)
    · rw [if_neg hk] at h
      rw [List.cons_append, lookupKey, if_neg hk]
      exact ih h

/-- C6: `format_price` renders 1234.5 as `$1,234.50` (thousands separators,
two decimals for values at least 1), 0.0000456 as `$0.0000456` (full decimal
precision in (0,1), no scientific notation, no trailing zeros), any
non-positive value as `$0.00`, and `None` or an unparseable value as the
not-available marker `?`. -/
theorem format_price_spec :
    format_price (PyVal.pyNum ⟨12345, 1⟩) ("$") = "$1,234.50" ∧
    format_price (PyVal.pyNum ⟨456, 7⟩) ("$") = "$0.0000456" ∧
    (∀ (m : Int) (e : Nat), m ≤ 0 → format_price (PyVal.pyNum ⟨m, e⟩) ("$") = "$0.00") ∧
    format_price PyVal.pyNone ("$") = "?" ∧
    (∀ s : String, format_price (PyVal.pyJunk s) ("$") = "?") := by
  refine ⟨by decide, by decide, ?_, rfl, fun s => rfl⟩
  intro m e h
  rw [format_price, if_pos h]
  decide

/-- C6 witness: the universally quantified non-positive case, applied at a
concrete negative decimal. -/
theorem format_price_spec_witness :
    format_price (PyVal.pyNum ⟨-37, 2⟩) ("$") = "$0.00" :=
  format_price_spec.2.2.1 (-37) 2 (by decide)

/-- C8: `PERIOD_SECONDS` maps exactly the four period keys, `hourly` to
3600, `daily` to 86400, `weekly` to 604800 and `monthly` to 2592000 (a
fixed 30-day duration), and `schedule_automation` registers the repeating
callback at the mapped duration of the automation's period. -/
theorem period_seconds_spec :
    periodSecondsMap ("hourly") = some 3600 ∧
    periodSecondsMap ("daily") = some 86400 ∧
    periodSecondsMap ("weekly") = some 604800 ∧
    periodSecondsMap ("monthly") = some 2592000 ∧
    (∀ s : String, (periodSecondsMap s).isSome = true ↔
      s = "hourly" ∨ s = "daily" ∨ s = "weekly" ∨ s = "monthly") ∧
    (∀ p : Period, periodSecondsMap p.key = some p.seconds) ∧
    (∀ (c : Config) (userId chatId : Int) (slug symbol : String) (p : Period),
      ((scheduleAutomation c userId chatId slug symbol p).2).sched.regs =
        c.sched.regs ++ [(c.sched.nextHandle,
          ⟨p.seconds, ⟨some slug, some symbol, some p.key, some userId⟩, chatId,
            "auto-" ++ toString userId ++ "-" ++ toString c.table.counter⟩)]) := by
  refine ⟨by decide, by decide, by decide, by decide, ?_, ?_, ?_⟩
  · intro s
    rw [periodSecondsMap]
    split_ifs with h1 h2 h3 h4 <;> simp_all
  · intro p
    cases p <;> rfl
  · intro c userId chatId slug symbol p
    rfl

/-- C8 witness: the domain characterization applied at an unknown key, and
the mapping applied at the monthly period. -/
theorem period_seconds_spec_witness :
    (periodSecondsMap ("yearly")).isSome = false ∧
    periodSecondsMap Period.monthly.key = some 2592000 := by
  constructor
  · have h := period_seconds_spec.2.2.2.2.1 ("yearly")
    by_cases hb : (periodSecondsMap ("yearly")).isSome = true
    · rcases h.mp hb with h1 | h1 | h1 | h1 <;> exact absurd h1 (by decide)
    · simpa using hb
  · exact period_seconds_spec.2.2.2.2.2.1 Period.monthly

/-- C9: any table access for a user with no existing table auto-vivifies an
empty table with counter 1 and no items (no failure, no not-found signal),
and listing such a user's automations yields the empty sequence; the
vivified table is stored for subsequent accesses. -/
theorem auto_vivify_spec (store : List (Int × Table)) (userId : Int)
    (h : lookupKey userId store = none) :
    getUserAutomations store userId = (initialTable, store ++ [(userId, initialTable)]) ∧
    (getUserAutomations store userId).1.counter = 1 ∧
    (getUserAutomations store userId).1.items = [] ∧
    listAutomations store userId = [] ∧
    lookupKey userId (getUserAutomations store userId).2 = some initialTable := by
  have h1 : getUserAutomations store userId = (initialTable, store ++ [(userId, initialTable)]) := by
    rw [getUserAutomations, h]
  refine ⟨h1, by rw [h1]; rfl, by rw [h1]; rfl, by rw [listAutomations, h1]; rfl, ?_⟩
  rw [h1]
  exact lookupKey_append_self h initialTable

/-- C9 witness: a fresh user id in an empty store. -/
theorem auto_vivify_spec_witness :
    getUserAutomations [] 42 = (initialTable, [(42, initialTable)]) ∧
    listAutomations [] 42 = [] := by
  have h := auto_vivify_spec [] 42 rfl
  exact ⟨by simpa using h.1, h.2.2.2.1⟩

/-- C3: `cancel_automation` returns true exactly when an automation with the
id existed; when it existed the entry is removed, its scheduled callback is
canceled, and the counter and all other entries are untouched; deleting a
nonexistent id returns false and leaves the whole state unchanged. -/
theorem delete_spec (c : Config) (automationId : Nat) :
    ((cancelAutomation c automationId).2 = true ↔
      (lookupKey automationId c.table.items).isSome = true) ∧
    (lookupKey automationId c.table.items = none →
      cancelAutomation c automationId = (c, false)) ∧
    (∀ a : Automation, lookupKey automationId c.table.items = some a →
      cancelAutomation c automationId =
        (⟨⟨c.table.counter, dictErase c.table.items automationId⟩,
          c.sched.cancel a.job⟩, true)) ∧
    (∀ j : Nat, j ≠ automationId →
      lookupKey j (cancelAutomation c automationId).1.table.items =
        lookupKey j c.table.items) ∧
    (cancelAutomation c automationId).1.table.counter = c.table.counter := by
  cases h : lookupKey automationId c.table.items with
  | none =>
    refine ⟨by simp [cancelAutomation, h], fun _ => by simp [cancelAutomation, h],
      fun a ha => absurd ha (by simp), fun j _ => by simp [cancelAutomation, h],
      by simp [cancelAutomation, h]⟩
  | some a =>
    refine ⟨by simp [cancelAutomation, h], fun hn => absurd hn (by simp),
      fun b hb => ?_, fun j hj => ?_, by simp [cancelAutomation, h]⟩
    · obtain rfl : a = b := by injection hb
      simp [cancelAutomation, h]
    · simp only [cancelAutomation, h]
      exact lookupKey_dictErase_ne c.table.items hj

/-- C3 witness: deleting the missing id 5 from the one-automation state is a
no-op reporting false, while deleting the present id 1 reports true. -/
theorem delete_spec_witness :
    cancelAutomation wCfg 5 = (wCfg, false) ∧ (cancelAutomation wCfg 1).2 = true := by
  exact ⟨(delete_spec wCfg 5).2.1 (by decide), ((delete_spec wCfg 1).1).mpr (by decide)⟩

/-- C2: updating the period of an existing automation with a valid new period
reports success, preserves the counter, the automation's id, symbol, slug
and owning user, cancels the previously stored callback, registers exactly
one new repeating callback at the new period's interval (carrying the same
slug, symbol and user), stores the new period and handle in place, and
leaves every other entry unchanged. -/
theorem update_period_spec (c : Config) (userId chatId : Int) (automationId : Nat)
    (a : Automation) (p : String) (iv : Nat)
    (hl : lookupKey automationId c.table.items = some a)
    (hp : periodSecondsMap p = some iv)
    (hja : a.job < c.sched.nextHandle) :
    (updatePeriod c userId chatId automationId p).2 = ManageResult.ok ∧
    (updatePeriod c userId chatId automationId p).1.table.counter = c.table.counter ∧
    lookupKey automationId (updatePeriod c userId chatId automationId p).1.table.items =
      some ⟨a.slug, a.symbol, p, c.sched.nextHandle⟩ ∧
    (∀ j : Nat, j ≠ automationId →
      lookupKey j (updatePeriod c userId chatId automationId p).1.table.items =
        lookupKey j c.table.items) ∧
    (updatePeriod c userId chatId automationId p).1.sched.regs =
      c.sched.regs.filter (fun e => e.1 ≠ a.job) ++
        [(c.sched.nextHandle,
          ⟨iv, ⟨some a.slug, some a.symbol, some p, some userId⟩, chatId,
            "auto-" ++ toString userId ++ "-" ++ toString automationId⟩)] ∧
    a.job ∉ ((updatePeriod c userId chatId automationId p).1.sched.regs.map (fun e => e.1)) := by
  have hu : updatePeriod c userId chatId automationId p =
      (⟨⟨c.table.counter,
          dictSet c.table.items automationId ⟨a.slug, a.symbol, p, c.sched.nextHandle⟩⟩,
        ⟨c.sched.nextHandle + 1,
          c.sched.regs.filter (fun e => e.1 ≠ a.job) ++
            [(c.sched.nextHandle,
              ⟨iv, ⟨some a.slug, some a.symbol, some p, some userId⟩, chatId,
                "auto-" ++ toString userId ++ "-" ++ toString automationId⟩)]⟩⟩,
        ManageResult.ok) := by
    rw [updatePeriod, hl, hp]
    rfl
  rw [hu]
  refine ⟨rfl, rfl, lookupKey_dictSet_self _ _ _,
    fun j hj => lookupKey_dictSet_ne _ _ hj, rfl, ?_⟩
  intro hmem
  simp only [List.map_append, List.mem_append, List.mem_map] at hmem
  rcases hmem with ⟨e, he, hee⟩ | hmem
  · have := List.of_mem_filter he
    simp [hee] at this
  · simp at hmem
    exact absurd hmem.symm (Nat.ne_of_lt hja)

/-- C2 witness: switching the concrete BTC automation with id 1 from hourly
to daily keeps id, symbol and slug, and stores the fresh handle 1. -/
theorem update_period_spec_witness :
    (updatePeriod wCfg 7 99 1 ("daily")).2 = ManageResult.ok ∧
    lookupKey 1 (updatePeriod wCfg 7 99 1 ("daily")).1.table.items =
      some ⟨"bitcoin", "BTC", "daily", 1⟩ := by
  have h := update_period_spec wCfg 7 99 1 ⟨"bitcoin", "BTC", "hourly", 0⟩ ("daily") 86400
    (by decide) (by decide) (by decide)
  exact ⟨h.1, h.2.2.1⟩

/-! Invariant machinery relating the job-queue arena to the stored entries. -/

theorem mapFst_filterNe {β : Type} (l : List (Nat × β)) (x : Nat) :
    (l.filter (fun e => e.1 ≠ x)).map (fun e => e.1) =
      (l.map (fun e => e.1)).filter (fun y => y ≠ x) := by
  induction l with
  | nil => rfl
  | cons e rest ih =>
    by_cases hx : e.1 = x
    · rw [List.filter_cons_of_neg (by simp [hx]), List.map_cons,
        List.filter_cons_of_neg (by simp [hx]), ih]
    · rw [List.filter_cons_of_pos (by simp [hx]), List.map_cons, List.map_cons,
        List.filter_cons_of_pos (by simp [hx]), ih]

theorem filterKey_map_job (items : List (Nat × Automation)) (automationId : Nat)
    (a : Automation)
    (hk : (items.map (fun e => e.1)).Nodup)
    (hj : (items.map (fun e => e.2.job)).Nodup)
    (hl : lookupKey automationId items = some a) :
    (items.filter (fun e => e.1 ≠ automationId)).map (fun e => e.2.job) =
      (items.map (fun e => e.2.job)).filter (fun j => j ≠ a.job) := by
  induction items with
  | nil => simp [lookupKey] at hl
  | cons e rest ih =>
    obtain ⟨k', v'⟩ := e
    simp only [List.map_cons, List.nodup_cons] at hk hj
    rw [lookupKey] at hl
    by_cases hkk : k' = automationId
    · rw [if_pos hkk] at hl
      obtain rfl : v' = a := by injection hl
      have h2 : List.filter (fun e => e.1 ≠ automationId) rest = rest := by
        rw [List.filter_eq_self]
        intro y hy
        simp only [ne_eq, decide_eq_true_eq]
        intro hc
        exact hk.1 (by rw [hkk, ← hc]; exact List.mem_map_of_mem _ hy)
      have h3 : List.filter (fun j => j ≠ v'.job) (rest.map (fun e => e.2.job)) =
          rest.map (fun e => e.2.job) := by
        rw [List.filter_eq_self]
        intro y hy
        simp only [ne_eq, decide_eq_true_eq]
        intro hc
        exact hj.1 (hc ▸ hy)
      rw [List.filter_cons_of_neg (by simp [hkk]), h2, List.map_cons,
        List.filter_cons_of_neg (by simp), h3]
    · rw [if_neg hkk] at hl
      have hmem : a.job ∈ rest.map (fun e => e.2.job) :=
        List.mem_map_of_mem _ (lookupKey_mem hl)
      have hne : v'.job ≠ a.job := fun hc => hj.1 (hc ▸ hmem)
      rw [List.filter_cons_of_pos (by simp [hkk]), List.map_cons, List.map_cons,
        List.filter_cons_of_pos (by simp [hne]), ih hk.2 hj.2 hl]

/-- The state invariant maintained by create/delete: the arena's handles
list coincides (in order) with the stored entries' handles, keys and handles
are duplicate-free, and both counters dominate everything issued so far. -/
structure RegInv (c : Config) : Prop where
  handlesEq : activeHandles c = tableJobs c
  keysNodup : (c.table.items.map (fun e => e.1)).Nodup
  jobsNodup : (tableJobs c).Nodup
  jobsLt : ∀ e ∈ c.table.items, e.2.job < c.sched.nextHandle
  idsLt : ∀ e ∈ c.table.items, e.1 < c.table.counter

theorem regInv_initial : RegInv initialConfig :=
  ⟨rfl, List.nodup_nil, List.nodup_nil, fun e he => absurd he (List.not_mem_nil e),
    fun e he => absurd he (List.not_mem_nil e)⟩

theorem regInv_create (c : Config) (userId chatId : Int) (slug symbol : String) (p : Period)
    (h : RegInv c) : RegInv (scheduleAutomation c userId chatId slug symbol p).2 := by
  have hfresh : ∀ e ∈ c.table.items, e.1 ≠ c.table.counter :=
    fun e he => Nat.ne_of_lt (h.idsLt e he)
  have hset : dictSet c.table.items c.table.counter
      ⟨slug, symbol, p.key, c.sched.nextHandle⟩ =
      c.table.items ++ [(c.table.counter, ⟨slug, symbol, p.key, c.sched.nextHandle⟩)] :=
    dictSet_of_fresh _ hfresh
  have hunfold : (scheduleAutomation c userId chatId slug symbol p).2 =
      ⟨⟨c.table.counter + 1,
        c.table.items ++ [(c.table.counter, ⟨slug, symbol, p.key, c.sched.nextHandle⟩)]⟩,
        ⟨c.sched.nextHandle + 1, c.sched.regs ++ [(c.sched.nextHandle,
          ⟨p.seconds, ⟨some slug, some symbol, some p.key, some userId⟩, chatId,
            "auto-" ++ toString userId ++ "-" ++ toString c.table.counter⟩)]⟩⟩ := by
    show Config.mk
        ⟨c.table.counter + 1, dictSet c.table.items c.table.counter
          ⟨slug, symbol, p.key, c.sched.nextHandle⟩⟩
        ⟨c.sched.nextHandle + 1, c.sched.regs ++ [(c.sched.nextHandle,
          ⟨p.seconds, ⟨some slug, some symbol, some p.key, some userId⟩, chatId,
            "auto-" ++ toString userId ++ "-" ++ toString c.table.counter⟩)]⟩ = _
    rw [hset]
  rw [hunfold]
  constructor
  · show (c.sched.regs ++ _).map (fun e => e.1) =
      (c.table.items ++ _).map (fun e => e.2.job)
    rw [List.map_append, List.map_append,
      show c.sched.regs.map (fun e => e.1) = tableJobs c from h.handlesEq]
    rfl
  · show ((c.table.items ++ _).map (fun e => e.1)).Nodup
    rw [List.map_append, List.nodup_append]
    refine ⟨h.keysNodup, by simp, ?_⟩
    intro x hx
    simp only [List.map_cons, List.map_nil, List.mem_singleton]
    rintro rfl
    rcases List.mem_map.mp hx with ⟨e, he, hee⟩
    exact hfresh e he hee
  · show ((c.table.items ++ _).map (fun e => e.2.job)).Nodup
    rw [List.map_append, List.nodup_append]
    refine ⟨h.jobsNodup, by simp, ?_⟩
    intro x hx
    simp only [List.map_cons, List.map_nil, List.mem_singleton]
    rintro rfl
    rcases List.mem_map.mp hx with ⟨e, he, hee⟩
    exact Nat.ne_of_lt (h.jobsLt e he) hee
  · intro e he
    rcases List.mem_append.mp he with he | he
    · exact Nat.lt_succ_of_lt (h.jobsLt e he)
    · simp only [List.mem_singleton] at he
      rw [he]
      exact Nat.lt_succ_self _
  · intro e he
    rcases List.mem_append.mp he with he | he
    · exact Nat.lt_succ_of_lt (h.idsLt e he)
    · simp only [List.mem_singleton] at he
      rw [he]
      exact Nat.lt_succ_self _

theorem regInv_delete (c : Config) (automationId : Nat)
    (h : RegInv c) : RegInv (cancelAutomation c automationId).1 := by
  cases hl : lookupKey automationId c.table.items with
  | none =>
    have hstate : (cancelAutomation c automationId).1 = c := by
      rw [cancelAutomation, hl]
    rw [hstate]
    exact h
  | some a =>
    have hstate : (cancelAutomation c automationId).1 =
        ⟨⟨c.table.counter, dictErase c.table.items automationId⟩,
          c.sched.cancel a.job⟩ := by
      rw [cancelAutomation, hl]
    rw [hstate]
    constructor
    · show (c.sched.regs.filter _).map _ = (c.table.items.filter _).map _
      rw [mapFst_filterNe,
        show c.sched.regs.map (fun e => e.1) = tableJobs c from h.handlesEq,
        filterKey_map_job c.table.items automationId a h.keysNodup h.jobsNodup hl]
      rfl
    · show ((c.table.items.filter _).map _).Nodup
      rw [mapFst_filterNe]
      exact h.keysNodup.filter _
    · show ((c.table.items.filter (fun e => e.1 ≠ automationId)).map
        (fun e => e.2.job)).Nodup
      rw [filterKey_map_job c.table.items automationId a h.keysNodup h.jobsNodup hl]
      exact h.jobsNodup.filter _
    · exact fun e he => h.jobsLt e (List.mem_of_mem_filter he)
    · exact fun e he => h.idsLt e (List.mem_of_mem_filter he)

theorem regInv_run (userId : Int) : ∀ (ops : List AOp) (c : Config),
    RegInv c → RegInv (runOps userId c ops) := by
  intro ops
  induction ops with
  | nil => exact fun c h => h
  | cons op rest ih =>
    intro c h
    cases op with
    | create chatId slug symbol p =>
      exact ih _ (regInv_create c userId chatId slug symbol p h)
    | delete automationId =>
      exact ih _ (regInv_delete c automationId h)

/-- C1: after any sequence of create and delete operations on one user's
table, the handles of the active job-queue registrations are exactly (and
without duplicates) the handles stored in the surviving automation entries:
no timer is leaked and no live entry holds a canceled handle. -/
theorem no_leaked_timers_spec (userId : Int) (ops : List AOp) :
    activeHandles (runOps userId initialConfig ops) =
      tableJobs (runOps userId initialConfig ops) ∧
    (activeHandles (runOps userId initialConfig ops)).Nodup := by
  have h := regInv_run userId ops initialConfig regInv_initial
  exact ⟨h.handlesEq, h.handlesEq ▸ h.jobsNodup⟩

theorem cancelAutomation_counter (c : Config) (automationId : Nat) :
    (cancelAutomation c automationId).1.table.counter = c.table.counter := by
  cases h : lookupKey automationId c.table.items with
  | none => rw [cancelAutomation, h]
  | some a => rw [cancelAutomation, h]

theorem issued_run (userId : Int) : ∀ (ops : List AOp) (c : Config),
    issuedIds userId c ops = List.range' c.table.counter (numCreates ops) ∧
    (runOps userId c ops).table.counter = c.table.counter + numCreates ops := by
  intro ops
  induction ops with
  | nil => exact fun c => ⟨rfl, rfl⟩
  | cons op rest ih =>
    intro c
    cases op with
    | create chatId slug symbol p =>
      have hcounter : (scheduleAutomation c userId chatId slug symbol p).2.table.counter =
          c.table.counter + 1 := rfl
      have h := ih (scheduleAutomation c userId chatId slug symbol p).2
      constructor
      · rw [show issuedIds userId c (AOp.create chatId slug symbol p :: rest) =
            c.table.counter ::
              issuedIds userId (scheduleAutomation c userId chatId slug symbol p).2 rest
            from rfl,
          h.1, hcounter, numCreates, List.range'_succ]
      · rw [show runOps userId c (AOp.create chatId slug symbol p :: rest) =
            runOps userId (scheduleAutomation c userId chatId slug symbol p).2 rest from rfl,
          h.2, hcounter, numCreates]
        omega
    | delete automationId =>
      have h := ih (cancelAutomation c automationId).1
      constructor
      · rw [show issuedIds userId c (AOp.delete automationId :: rest) =
            issuedIds userId (cancelAutomation c automationId).1 rest from rfl,
          h.1, cancelAutomation_counter, numCreates]
      · rw [show runOps userId c (AOp.delete automationId :: rest) =
            runOps userId (cancelAutomation c automationId).1 rest from rfl,
          h.2, cancelAutomation_counter, numCreates]

/-- C4: the ids issued over any create/delete sequence starting from a fresh
table are exactly 1, 2, ..., n in order (n the number of creates): they
start at 1, strictly increase even across interleaved deletes, are never
reused, and the final counter strictly exceeds every id ever issued. -/
theorem ids_monotone_spec (userId : Int) (ops : List AOp) :
    issuedIds userId initialConfig ops = List.range' 1 (numCreates ops) ∧
    (runOps userId initialConfig ops).table.counter = numCreates ops + 1 ∧
    List.Chain' (fun i j => i < j) (issuedIds userId initialConfig ops) ∧
    (∀ i ∈ issuedIds userId initialConfig ops,
      i < (runOps userId initialConfig ops).table.counter) := by
  have h := issued_run userId ops initialConfig
  have hcounter : (runOps userId initialConfig ops).table.counter = numCreates ops + 1 := by
    rw [h.2]
    show 1 + numCreates ops = numCreates ops + 1
    omega
  refine ⟨h.1, hcounter, ?_, ?_⟩
  · rw [h.1]
    exact (List.pairwise_lt_range' 1 (numCreates ops)).chain'
  · intro i hi
    rw [h.1] at hi
    rw [hcounter]
    have := (List.mem_range'_1.mp hi).2
    omega

/-- C4 witness: create, delete id 1, create again; the issued ids are 1 then
2 (1 is not reused) and the final counter 3 exceeds the issued id 2. -/
theorem ids_monotone_spec_witness :
    issuedIds 7 initialConfig wOps = [1, 2] ∧
    (runOps 7 initialConfig wOps).table.counter = 3 ∧
    2 < (runOps 7 initialConfig wOps).table.counter := by
  have h := ids_monotone_spec 7 wOps
  refine ⟨?_, ?_, ?_⟩
  · rw [h.1]
    rfl
  · rw [h.2.1]
    rfl
  · exact h.2.2.2 2 (by rw [h.1]; decide)

/-- C7 (amended): quote formatting degrades field-by-field for price, market
cap and volume — an absent or unparseable value there renders as the single
marker `?` while the rest still renders — and it never raises provided the
24h-change statistic is absent or numeric; a present but unparseable
24h-change value is the one case that raises instead of degrading. -/
theorem format_quote_degrades :
    (∀ (q : Quote) (lang timestamp : String),
      (q.stats.getD emptyStats).priceChangePercentage24h.isJunk = false →
      ∃ body : String, format_quote q lang timestamp = Except.ok body) ∧
    (∀ s : String, format_price (PyVal.pyJunk s) ("$") = "?") ∧
    (format_price PyVal.pyNone ("$") = "?") ∧
    (∀ (s pfx : String) (decimals : Nat), format_number (PyVal.pyJunk s) pfx decimals = "?") ∧
    (∀ (pfx : String) (decimals : Nat), format_number PyVal.pyNone pfx decimals = "?") := by
  refine ⟨?_, fun s => rfl, rfl, fun s pfx decimals => rfl, fun pfx decimals => rfl⟩
  intro q lang ts h
  cases hc : (q.stats.getD emptyStats).priceChangePercentage24h with
  | pyNone =>
    rw [format_quote, hc]
    exact ⟨_, rfl⟩
  | pyNum d =>
    rw [format_quote, hc]
    exact ⟨_, rfl⟩
  | pyJunk s =>
    rw [hc] at h
    simp [PyVal.isJunk] at h

/-- C7 witness: a quote whose price, market cap and volume are junk and
whose change is absent still formats successfully. -/
theorem format_quote_degrades_witness :
    ∃ body : String,
      format_quote
        ⟨some ("Bitcoin"), some ("BTC"), "bitcoin",
          some ⟨PyVal.pyJunk ("x"), PyVal.pyNone, PyVal.pyJunk ("y"),
            PyVal.pyJunk ("z"), PyVal.pyNone⟩⟩
        ("en") ("2026-10-12 00:00 UTC") = Except.ok body :=
  format_quote_degrades.1
    ⟨some ("Bitcoin"), some ("BTC"), "bitcoin",
      some ⟨PyVal.pyJunk ("x"), PyVal.pyNone, PyVal.pyJunk ("y"),
        PyVal.pyJunk ("z"), PyVal.pyNone⟩⟩
    ("en") ("2026-10-12 00:00 UTC") (by decide)

/-- C7 counterexample: a quote whose numeric fields are all present, with a
24h-change value that fails to parse; `format_quote` raises
(`f"{change_24h:+.2f}"` on a non-numeric value) instead of rendering a
marker, refuting "this must never raise". -/
theorem format_quote_raises :
    format_quote
      ⟨some ("Bitcoin"), some ("BTC"), "bitcoin",
        some ⟨PyVal.pyNum ⟨5000000, 2⟩, PyVal.pyJunk ("n/a"),
          PyVal.pyNum ⟨1, 0⟩, PyVal.pyNum ⟨2, 0⟩, PyVal.pyNum ⟨3, 0⟩⟩⟩
      ("en") ("2026-10-12 00:00 UTC") = Except.error () := rfl

/-- C5 (amended): on a tick whose payload carries a real slug and a valid
period, the fetch happens exactly once and the registration is never
removed; a failed fetch (absent quote, missing stats, absent price) sends
exactly one localized unavailable notice scheduled for deletion after the
automation's own interval; a successful fetch whose quote formats without
raising sends exactly one period-prefixed quote message scheduled after the
same delay; a successful fetch whose quote raises while formatting (junk
24h-change value) sends nothing for that tick.  In every case at most one
outbound message is produced. -/
theorem tick_spec (data : TickData) (jobChatId : Int) (langOf : Int → String)
    (fetch : String → Option Quote) (timestamp : String) (s p : String) (iv : Nat)
    (hs : data.slug = some s) (hs0 : s ≠ "")
    (hp : data.period = some p) (hiv : periodSecondsMap p = some iv) :
    ((sendAutomationUpdate data jobChatId langOf fetch timestamp).sent.length ≤ 1 ∧
      (sendAutomationUpdate data jobChatId langOf fetch timestamp).fetchCalls = 1 ∧
      (sendAutomationUpdate data jobChatId langOf fetch timestamp).removedJob = false) ∧
    (fetchFails (fetch s) = true →
      sendAutomationUpdate data jobChatId langOf fetch timestamp =
        ⟨[⟨jobChatId, MsgText.fetchUnavailable (tickLang data langOf) data.symbol⟩],
          [iv], 1, false, false⟩) ∧
    (∀ (q : Quote) (body : String), fetch s = some q → fetchFails (some q) = false →
      format_quote q (tickLang data langOf) timestamp = Except.ok body →
      sendAutomationUpdate data jobChatId langOf fetch timestamp =
        ⟨[⟨jobChatId, MsgText.automationQuote (tickLang data langOf)
            (tickPeriodLabel data langOf) body⟩],
          [iv], 1, false, false⟩) ∧
    (∀ q : Quote, fetch s = some q → fetchFails (some q) = false →
      format_quote q (tickLang data langOf) timestamp = Except.error () →
      sendAutomationUpdate data jobChatId langOf fetch timestamp =
        ⟨[], [], 1, false, true⟩) := by
  have hq : tickQuote data fetch = fetch s := by
    simp [tickQuote, hs, hs0]
  have hn : tickFetchCalls data = 1 := by
    simp [tickFetchCalls, hs, hs0]
  have hd : tickDelay data = iv := by
    simp [tickDelay, hp, hiv]
  have hbody : sendAutomationUpdate data jobChatId langOf fetch timestamp =
      if fetchFails (fetch s) then
        ⟨[⟨jobChatId, .fetchUnavailable (tickLang data langOf) data.symbol⟩], [iv], 1,
          false, false⟩
      else
        match fetch s with
        | some quote =>
          match format_quote quote (tickLang data langOf) timestamp with
          | .error _ => ⟨[], [], 1, false, true⟩
          | .ok body =>
            ⟨[⟨jobChatId, .automationQuote (tickLang data langOf)
                (tickPeriodLabel data langOf) body⟩], [iv], 1, false, false⟩
        | none => ⟨[], [], 1, false, false⟩ := by
    rw [sendAutomationUpdate, hq, hn, hd]
  refine ⟨?_, ?_, ?_, ?_⟩
  · by_cases hf : fetchFails (fetch s) = true
    · simp [hbody, hf]
    · cases hfq : fetch s with
      | none =>
        rw [hfq] at hf
        exact absurd rfl hf
      | some q =>
        have hff : fetchFails (some q) = false := by
          rw [hfq] at hf
          revert hf
          cases fetchFails (some q) <;> simp
        cases hmt : format_quote q (tickLang data langOf) timestamp with
        | error e => simp [hbody, hfq, hff, hmt]
        | ok body => simp [hbody, hfq, hff, hmt]
  · intro hf
    simp [hbody, hf]
  · intro q body hfq hff hok
    simp [hbody, hfq, hff, hok]
  · intro q hfq hff herr
    simp [hbody, hfq, hff, herr]

/-- C5 witness: the failure branch at a concrete payload whose fetch returns
nothing — one unavailable notice, deletion delay equal to the hourly
interval of the automation. -/
theorem tick_spec_witness :
    sendAutomationUpdate cexTickData 99 (fun _ => DEFAULT_LANGUAGE) (fun _ => none)
        ("2026-10-12 00:00 UTC") =
      ⟨[⟨99, MsgText.fetchUnavailable ("en") (some ("BTC"))⟩], [3600], 1, false, false⟩ := by
  have h := (tick_spec cexTickData 99 (fun _ => DEFAULT_LANGUAGE) (fun _ => none)
    ("2026-10-12 00:00 UTC") ("bitcoin") ("hourly") 3600 rfl (by decide) rfl
    (by decide)).2.1 rfl
  rw [h]
  rfl

/-- C5 counterexample: a tick in the claim's "otherwise" case — the fetched
quote is present, carries stats and a present price — yet no message at all
is sent: the junk 24h-change value makes `format_quote` raise inside the
send expression, so the tick produces zero outbound messages where the
claim requires exactly one. -/
theorem tick_drops_message_on_junk_change :
    fetchFails (some cexQuote) = false ∧
    (sendAutomationUpdate cexTickData 99 (fun _ => DEFAULT_LANGUAGE) cexFetch
      ("2026-10-12 00:00 UTC")).sent = [] ∧
    (sendAutomationUpdate cexTickData 99 (fun _ => DEFAULT_LANGUAGE) cexFetch
      ("2026-10-12 00:00 UTC")).raised = true := by
  exact ⟨rfl, rfl, rfl⟩

/-- C10: when the tick payload's period is absent or not one of the four
known keys, every message the tick sends is still scheduled for deletion,
with the fallback delay of exactly 3600 seconds. -/
theorem fallback_delay_spec (data : TickData) (jobChatId : Int) (langOf : Int → String)
    (fetch : String → Option Quote) (timestamp : String)
    (hp : data.period = none ∨
      ∃ p : String, data.period = some p ∧ periodSecondsMap p = none) :
    (sendAutomationUpdate data jobChatId langOf fetch timestamp).deleteDelays =
      (sendAutomationUpdate data jobChatId langOf fetch timestamp).sent.map
        (fun _ => 3600) := by
  have hd : tickDelay data = 3600 := by
    rcases hp with hp | ⟨p, hp, hnone⟩
    · rw [tickDelay, hp]
    · simp [tickDelay, hp, hnone]
  rw [sendAutomationUpdate, hd]
  by_cases hf : fetchFails (tickQuote data fetch) = true
  · rw [if_pos hf]
    rfl
  · rw [if_neg hf]
    cases hfq : tickQuote data fetch with
    | none =>
      rw [hfq] at hf
      exact absurd rfl hf
    | some quote =>
      cases hmt : format_quote quote (tickLang data langOf) timestamp with
      | error e => simp [hfq, hmt]
      | ok body => simp [hfq, hmt]

/-- C10 witness: a payload carrying the unknown period token `yearly`; the
failure notice is scheduled for deletion after exactly 3600 seconds. -/
theorem fallback_delay_spec_witness :
    (sendAutomationUpdate ⟨some ("bitcoin"), some ("BTC"), some ("yearly"), some 7⟩ 99
      (fun _ => DEFAULT_LANGUAGE) (fun _ => none) ("ts")).deleteDelays = [3600] := by
  have h := fallback_delay_spec ⟨some ("bitcoin"), some ("BTC"), some ("yearly"), some 7⟩ 99
    (fun _ => DEFAULT_LANGUAGE) (fun _ => none) ("ts")
    (Or.inr ⟨"yearly", rfl, by decide⟩)
  rw [h]
  rfl
